import Mathlib

/-!
Verification of the wasmCloud provider WIT bindgen macro
(`crates/provider-wit-bindgen-macro/src/lib.rs`).

This file gives a shallow embedding of the binding compiler's core data
flow: operation-name construction, the lattice-method table builder, the
generated wRPC dispatch procedure (argument decoding, handler invocation,
result encoding), the import invocation-handler generation loop with its
package exclusions, and the wRPC NATS subject mapping. Naming-convention
translation (kebab-case, upper camel case) is embedded faithfully after the
`heck` crate's word-splitting algorithm, restricted to ASCII, which is the
character set the generated identifiers use.
-/

namespace ProviderWitBindgen

/-! ## Case conversion (model of the heck crate, ASCII restriction)

`heck`'s `transform` splits a string into chunks on non-alphanumeric
characters, then splits each chunk into words at lowercase-to-uppercase
boundaries and before the last uppercase letter of an uppercase run that is
followed by a lowercase letter. Kebab-casing lowercases each word and joins
with a hyphen; upper-camel-casing capitalizes each word and concatenates. -/

/-- Tracks the case of the previous cased character while scanning a chunk,
as in heck's `WordMode`. -/
inductive WordMode where
  | boundary
  | lower
  | upper
deriving DecidableEq, Repr

/-- Split a character list into chunks at characters that are not
alphanumeric, dropping the separators (model of Rust
`str::split(|c| !c.is_alphanumeric())`). -/
def splitNonAlnum : List Char → List (List Char)
  | [] => [[]]
  | c :: rest =>
    match splitNonAlnum rest with
    | [] => [[]]
    | cur :: more =>
      if c.isAlphanum then (c :: cur) :: more else [] :: cur :: more

/-- Split one alphanumeric chunk into camel-case words, following heck's
scanning loop: a word ends after a cased-lowercase (or mode-preserved)
character that is followed by an uppercase one, and a word ends before the
last uppercase character of an uppercase run followed by a lowercase one. -/
def camelWords (mode : WordMode) (acc : List Char) : List Char → List (List Char)
  | [] => []
  | [c] => [acc ++ [c]]
  | c :: next :: rest =>
    let nextMode : WordMode :=
      if c.isLower then .lower else if c.isUpper then .upper else mode
    if nextMode = .lower ∧ next.isUpper then
      (acc ++ [c]) :: camelWords .boundary [] (next :: rest)
    else if mode = .upper ∧ c.isUpper ∧ next.isLower then
      acc :: camelWords .boundary [c] (next :: rest)
    else
      camelWords nextMode (acc ++ [c]) (next :: rest)

/-- All case-boundary words of a string, in order. -/
def heckWords (s : String) : List (List Char) :=
  (splitNonAlnum s.toList).flatMap (camelWords .boundary [])

/-- Model of `heck::ToKebabCase::to_kebab_case`: lowercase every word and
join the words with hyphens. -/
def toKebabCase (s : String) : String :=
  String.intercalate "-" ((heckWords s).map (fun w => String.mk (w.map Char.toLower)))

/-- Model of heck's `capitalize`: first character uppercased, the rest
lowercased. -/
def capitalizeWord (w : List Char) : String :=
  match w with
  | [] => ""
  | c :: cs => String.mk (c.toUpper :: cs.map Char.toLower)

/-- Model of `heck::ToUpperCamelCase::to_upper_camel_case`: capitalize every
word and concatenate with no delimiter. -/
def toUpperCamelCase (s : String) : String :=
  String.join ((heckWords s).map capitalizeWord)

/-! ## Interface path splitting -/

/-- Split a character list on a separator character, keeping empty pieces
(model of Rust `str::split(sep)`, which yields one empty piece for the
empty string and empty pieces around adjacent separators). -/
def splitOnCharList (sep : Char) : List Char → List (List Char)
  | [] => [[]]
  | c :: rest =>
    match splitOnCharList sep rest with
    | [] => [[]]
    | cur :: more => if c = sep then [] :: cur :: more else (c :: cur) :: more

/-- Model of Rust `str::split(sep).collect::<Vec<_>>()`. -/
def rustSplit (sep : Char) (s : String) : List String :=
  (splitOnCharList sep s.toList).map (fun cs => String.mk cs)

/-! ## Operation-name construction (`build_lattice_methods_by_wit_interface`,
lib.rs lines 576-588)

The WIT interface path (for example `wasmcloud.keyvalue.key_value`) is split
on dots; exactly three components (namespace, package, interface) are
required, and the operation name is formed by kebab-casing each component
and the trait method identifier independently. -/

/-- Embeds the `wit_operation` construction of
`build_lattice_methods_by_wit_interface`: split the interface path on dots,
require exactly three components, then format
namespace-kebab colon package-kebab slash interface-kebab dot function-kebab.
Any other component count is the `bail!` error. -/
def buildWitOperation (witIfaceName funcIdent : String) : Except String String :=
  match rustSplit '.' witIfaceName with
  | [witNs, witPkg, iface] =>
    .ok (toKebabCase witNs ++ ":" ++ toKebabCase witPkg ++ "/" ++
      toKebabCase iface ++ "." ++ toKebabCase funcIdent)
  | _ => .error "unexpected interface path, expected 3 components"

/-- Embeds the `wit_iface_upper_camel` construction: split the interface
path on dots, upper-camel-case every piece, and concatenate. -/
def witIfaceUpperCamel (witIfaceName : String) : String :=
  String.join ((rustSplit '.' witIfaceName).map toUpperCamelCase)

/-! ## Lattice methods (`ExportedLatticeMethod` and
`build_lattice_methods_by_wit_interface`)

Types are represented by their simple names (the macro works on token
streams; only name-keyed catalog lookups matter here). The record-type
catalog (`StructLookup`) maps a record type name to its field list in
declared order. -/

/-- A record-type catalog entry: field name and field type name pairs, in
the record's declared field order. -/
abbrev RecordFields := List (String × String)

/-- Model of `StructLookup`: record type name to record definition. The
qualified-path component of the Rust pair is irrelevant to the claims and
omitted. -/
abbrev StructLookup := List (String × RecordFields)

/-- A scraped trait method as it appears in `export_trait_methods`: the
method identifier and its declared parameters (name, type name) in
declaration order, plus the optional return type. -/
structure FnSig where
  name : String
  args : List (String × String)
  ret : Option String
deriving DecidableEq, Repr

/-- Embeds `ExportedLatticeMethod` (lib.rs lines 89-102): the operation
name, the Rust method name, the invocation arguments in order, and the
return shape. -/
structure LatticeMethod where
  operation_name : String
  func_name : String
  invocation_args : List (String × String)
  invocation_return : Option String
deriving DecidableEq, Repr

/-- Modelled from the spec: `translate_export_fn_for_lattice` lives in the
crate's `wit` module, which is not among the available sources. Per the
spec's record flattening rule, a function with exactly one declared
parameter whose type is an entry of the record-type catalog has that
parameter replaced by the record's own fields, in the record's declared
field order; a sole parameter whose type is not in the catalog is kept
as-is as one named argument, and any other argument list is kept in
declaration order. -/
def translate_export_fn_for_lattice (structLookup : StructLookup)
    (operationName : String) (fn : FnSig) : LatticeMethod :=
  let invocationArgs :=
    match fn.args with
    | [(argName, tyName)] =>
      match List.lookup tyName structLookup with
      | some fields => fields
      | none => [(argName, tyName)]
    | other => other
  { operation_name := operationName
    func_name := fn.name
    invocation_args := invocationArgs
    invocation_return := fn.ret }

/-- Embeds the inner loop of `build_lattice_methods_by_wit_interface` over
one interface's trait methods: build the operation name (which can fail on
a malformed interface path), translate the method, and tag it with the
upper-camel trait name. -/
def processIfaceFns (structLookup : StructLookup) (witIfaceName : String) :
    List FnSig → Except String (List (String × LatticeMethod))
  | [] => .ok []
  | fn :: rest =>
    match buildWitOperation witIfaceName fn.name with
    | .error e => .error e
    | .ok op =>
      let lm := translate_export_fn_for_lattice structLookup op fn
      match processIfaceFns structLookup witIfaceName rest with
      | .error e => .error e
      | .ok more => .ok ((witIfaceUpperCamel witIfaceName, lm) :: more)

/-- Embeds `build_lattice_methods_by_wit_interface` (lib.rs lines 563-615)
over the scraped `export_trait_methods` table, here an association list of
interface path to trait methods (the Rust `HashMap` has unspecified
iteration order; the claims proved below hold for every order). The
result is the trait-name-keyed multimap of lattice methods, or the first
error, which aborts the whole run. -/
def build_lattice_methods_by_wit_interface (structLookup : StructLookup) :
    List (String × List FnSig) → Except String (List (String × LatticeMethod))
  | [] => .ok []
  | (witIfaceName, funcs) :: rest =>
    match processIfaceFns structLookup witIfaceName funcs with
    | .error e => .error e
    | .ok ms =>
      match build_lattice_methods_by_wit_interface structLookup rest with
      | .error e => .error e
      | .ok more => .ok (ms ++ more)

/-! ## The generated dispatch procedure (`dispatch_wrpc_dynamic`,
lib.rs lines 536-555, with per-arm code generated at lines 282-374)

Wire values are modelled by the two fallible stages the generated code
applies to each one: `Encode::encode` into a byte buffer, then
`Receive::receive` from that buffer into the typed argument. Decoded
arguments and encoded response bytes are abstracted as naturals. -/

instance {ε α : Type} [DecidableEq ε] [DecidableEq α] : DecidableEq (Except ε α) := fun x y =>
  match x, y with
  | .ok a, .ok b =>
    if h : a = b then isTrue (congrArg Except.ok h)
    else isFalse (fun hc => h (Except.ok.inj hc))
  | .error a, .error b =>
    if h : a = b then isTrue (congrArg Except.error h)
    else isFalse (fun hc => h (Except.error.inj hc))
  | .ok _, .error _ => isFalse (fun hc => Except.noConfusion hc)
  | .error _, .ok _ => isFalse (fun hc => Except.noConfusion hc)

/-- A byte buffer produced by encoding one wire value; receiving from it
yields the typed argument or a failure message. -/
structure WBytes where
  receiveResult : Except String Nat
deriving DecidableEq, Repr

/-- A `wrpc_transport::Value`: encoding it into bytes may fail with a
message. -/
structure WValue where
  encodeResult : Except String WBytes
deriving DecidableEq, Repr

instance : Inhabited WValue := ⟨⟨Except.error ""⟩⟩

/-- The combined decode pipeline for one value, ignoring message wrapping:
encode to bytes, then receive. -/
def decodeValue (v : WValue) : Except String Nat :=
  match v.encodeResult with
  | .error e => .error e
  | .ok b => b.receiveResult

/-- Embeds `wasmcloud_provider_sdk::error::InvocationError` as used by the
generated dispatch code. -/
inductive InvocationError where
  | malformed (msg : String)
  | unexpected (msg : String)
deriving DecidableEq, Repr

/-- Model of Rust `Vec::pop`: remove and return the last element. -/
def popBack (l : List WValue) : Option (WValue × List WValue) :=
  match l.getLast? with
  | none => none
  | some v => some (v, l.dropLast)

/-- Embeds the two fallible stages the generated per-argument decoding
statements apply to one popped value (lib.rs lines 305-315): an `encode`
failure or a `receive` failure is wrapped as an `Unexpected` invocation
error naming the parameter and the underlying cause. -/
def decodeOneArg (argName : String) (v : WValue) : Except InvocationError Nat :=
  match v.encodeResult with
  | .error e =>
    .error (.unexpected ("failed to encode parameter [" ++ argName ++ "]: " ++ e))
  | .ok b =>
    match b.receiveResult with
    | .error e =>
      .error (.unexpected ("failed to receive parameter [" ++ argName ++ "]: " ++ e))
    | .ok x => .ok x

/-- Embeds the sequence of generated `input_decoding_lines` of one dispatch
arm (lib.rs lines 297-318): for each declared argument in declaration
order, pop one value off the back of the incoming parameter vector (a
missing value is an `Unexpected` error naming the parameter), then decode
it. Returns the decoded arguments in declaration order together with the
remaining parameter vector. -/
def decodeArgs : List String → List WValue →
    Except InvocationError (List Nat × List WValue)
  | [], params => .ok ([], params)
  | argName :: rest, params =>
    match popBack params with
    | none =>
      .error (.unexpected ("missing expected parameter [" ++ argName ++ "]"))
    | some (v, params') =>
      match decodeOneArg argName v with
      | .error e => .error e
      | .ok x =>
        match decodeArgs rest params' with
        | .error e => .error e
        | .ok (xs, rest') => .ok (x :: xs, rest')

/-- Reformulation of `decodeArgs` used inside the proofs: the same
per-argument pipeline, but consuming the value collection front-first.
Feeding it the reversed parameter vector gives exactly `decodeArgs` (the
remaining collection comes back reversed); this equivalence is proved in
`decodeArgs_eq_front` below, and every statement about `decodeArgs` itself
refers only to `decodeArgs`. -/
def decodeArgsFront : List String → List WValue →
    Except InvocationError (List Nat × List WValue)
  | [], rev => .ok ([], rev)
  | argName :: rest, rev =>
    match rev with
    | [] =>
      .error (.unexpected ("missing expected parameter [" ++ argName ++ "]"))
    | v :: rev' =>
      match decodeOneArg argName v with
      | .error e => .error e
      | .ok x =>
        match decodeArgsFront rest rev' with
        | .error e => .error e
        | .ok (xs, rest') => .ok (x :: xs, rest')

/-- Whether the full decode pipeline succeeds on a value. -/
def decodeOk (v : WValue) : Bool :=
  match decodeValue v with
  | .ok _ => true
  | .error _ => false

/-- A wire value whose encode and receive stages both succeed, yielding the
given payload; used for concrete instantiations. -/
def mkVal (n : Nat) : WValue := ⟨.ok ⟨.ok n⟩⟩

/-- One generated dispatch match arm: the operation-name literal, the
declared argument names in order, and the provider's handler method, which
here also performs the result `encode` step (an encode failure is reported
with the returned message). -/
structure DispatchArm where
  operationName : String
  argNames : List String
  handler : Nat → List Nat → Except String (List Nat)

/-- Embeds the body of one matched dispatch arm (lib.rs lines 359-374):
decode the arguments, invoke the handler with the context and the decoded
arguments, and encode the result (a result-encode failure is an
`Unexpected` error naming the operation). -/
def runArm (arm : DispatchArm) (ctx : Nat) (operation : String)
    (params : List WValue) : Except InvocationError (List Nat) :=
  match decodeArgs arm.argNames params with
  | .error e => .error e
  | .ok (args, _) =>
    match arm.handler ctx args with
    | .error e =>
      .error (.unexpected
        ("failed to encode result of operation [" ++ operation ++ "]: " ++ e))
    | .ok res => .ok res

/-- Embeds `dispatch_wrpc_dynamic` (lib.rs lines 538-554): match the
operation name against the generated arms' operation-name literals (the
first matching arm wins, as in a Rust `match` on string literals); with no
match, fail with a `Malformed` error naming the operation. -/
def dispatch_wrpc_dynamic (arms : List DispatchArm) (ctx : Nat)
    (operation : String) (params : List WValue) :
    Except InvocationError (List Nat) :=
  match arms.find? (fun a => a.operationName == operation) with
  | some arm => runArm arm ctx operation params
  | none => .error (.malformed ("Invalid operation name [" ++ operation ++ "]"))

/-- The dispatch arm generated for one lattice method (the fold at lib.rs
lines 282-357 plus the arm assembly at lines 359-374): the arm matches the
method's operation name and decodes one value per invocation argument, in
declaration order. -/
def armOfLatticeMethod (lm : LatticeMethod)
    (handler : Nat → List Nat → Except String (List Nat)) : DispatchArm :=
  { operationName := lm.operation_name
    argNames := lm.invocation_args.map Prod.fst
    handler := handler }

/-! ## Import invocation handlers (`generate`, lib.rs lines 125-169, and
`is_ignored_invocation_handler_pkg`, lib.rs lines 618-623) -/

/-- Embeds `wit_parser::PackageName` as far as the exclusion predicate
consults it: namespace and package name. -/
structure PackageName where
  ns : String
  name : String
deriving DecidableEq, Repr

/-- Embeds `is_ignored_invocation_handler_pkg`: the bus-control package
(namespace `wasmcloud`, name `bus`) and the generic I/O package (namespace
`wasi`, name `io`) are never processed into invocation handlers. -/
def is_ignored_invocation_handler_pkg (pkg : PackageName) : Bool :=
  (pkg.ns == "wasmcloud" && pkg.name == "bus") || (pkg.ns == "wasi" && pkg.name == "io")

/-- An imported interface as the generation loop sees it: its (optional)
owning package and its function names in iteration order. -/
structure ImportedInterface where
  package : Option PackageName
  functions : List String
deriving DecidableEq, Repr

/-- The allow-list and deny-list of the parsed `ProviderBindgenConfig`.
The import-handler generation loop never consults either. -/
structure ExposureConfig where
  exposed_interface_allow_list : List String
  exposed_interface_deny_list : List String
deriving DecidableEq, Repr

/-- Embeds the import-processing loop of `generate` (lib.rs lines 125-169):
for every imported interface whose package is not ignored, every function
is translated into an invocation-handler method (the method body itself is
produced by the crate's `wit` module and is irrelevant to the claims; each
generated method is represented by its originating package and function
name). Interfaces whose package satisfies
`is_ignored_invocation_handler_pkg` are skipped entirely; the allow/deny
configuration is not consulted. -/
def imported_iface_invocation_methods (cfg : ExposureConfig)
    (imports : List ImportedInterface) : List (Option PackageName × String) :=
  imports.flatMap (fun iface =>
    if (iface.package.map is_ignored_invocation_handler_pkg).getD false then []
    else iface.functions.map (fun f => (iface.package, f)))

/-! ## wRPC subject mapping (`build_wrpc_impls`, lib.rs lines 626-688)

The per-export data (`crate::wrpc::WrpcExport`) is produced by the crate's
`wrpc` module, which is not among the available sources; its fields are
taken as given, exactly as the insertion-line construction consumes them.
The serialized `DynamicFunction` descriptor is carried as its JSON string,
which is what the generated code embeds and deserializes. -/

/-- The per-export record consumed by `build_wrpc_impls`: the four
operation-name segments and the mapped triple of world key name, function
name, and serialized dynamic function descriptor. -/
structure WrpcExport where
  wit_ns : String
  wit_pkg : String
  wit_iface : String
  wit_iface_fn : String
  worldKeyName : String
  functionName : String
  dynamicFn : String
deriving DecidableEq, Repr

/-- Embeds the subject key built by each generated insertion line (lib.rs
lines 652-657): the runtime-supplied lattice name, component id, the
literal transport tag `wrpc`, the wRPC protocol version, and the export's
canonical operation name, dot-separated. -/
def wrpcSubject (latticeName componentId wrpcVersion : String)
    (e : WrpcExport) : String :=
  latticeName ++ "." ++ componentId ++ ".wrpc." ++ wrpcVersion ++ "." ++
    e.wit_ns ++ ":" ++ e.wit_pkg ++ "/" ++ e.wit_iface ++ "." ++ e.wit_iface_fn

/-- Embeds `incoming_wrpc_invocations_by_subject` (lib.rs lines 667-683):
one table entry per export, mapping the subject key to the triple of world
key name, function name, and dynamic function descriptor. -/
def incoming_wrpc_invocations_by_subject (exports : List WrpcExport)
    (latticeName componentId wrpcVersion : String) :
    List (String × (String × String × String)) :=
  exports.map (fun e =>
    (wrpcSubject latticeName componentId wrpcVersion e,
      (e.worldKeyName, e.functionName, e.dynamicFn)))

/-! ## Helper lemmas about the generated argument decoding -/

theorem decodeOneArg_ok_iff (argName : String) (v : WValue) (x : Nat) :
    decodeOneArg argName v = .ok x ↔ decodeValue v = .ok x := by
  cases hv : v.encodeResult with
  | error e => simp [decodeOneArg, decodeValue, hv]
  | ok b =>
    cases hb : b.receiveResult with
    | error e => simp [decodeOneArg, decodeValue, hv, hb]
    | ok y => simp [decodeOneArg, decodeValue, hv, hb]

theorem decodeOk_iff (v : WValue) :
    decodeOk v = true ↔ ∃ x, decodeValue v = .ok x := by
  cases hv : decodeValue v <;> simp [decodeOk, hv]

theorem popBack_concat (l : List WValue) (v : WValue) :
    popBack (l ++ [v]) = some (v, l) := by
  simp [popBack, List.getLast?_concat, List.dropLast_concat]

theorem decodeArgs_eq_front (names : List String) (params : List WValue) :
    decodeArgs names params =
      (decodeArgsFront names params.reverse).map (fun p => (p.1, p.2.reverse)) := by
  induction names generalizing params with
  | nil => simp [decodeArgs, decodeArgsFront, Except.map]
  | cons n rest ih =>
    cases hrev : params.reverse with
    | nil =>
      have hp : params = [] := List.reverse_eq_nil_iff.mp hrev
      subst hp
      simp [decodeArgs, decodeArgsFront, popBack, Except.map]
    | cons v rev' =>
      have hp : params = rev'.reverse ++ [v] := by
        have h2 := congrArg List.reverse hrev
        simpa using h2
      subst hp
      simp only [decodeArgs, popBack_concat, decodeArgsFront]
      cases hdo : decodeOneArg n v with
      | error e => simp [Except.map]
      | ok x =>
        rw [ih]
        simp only [List.reverse_reverse]
        cases hfr : decodeArgsFront rest rev' with
        | error e => simp [Except.map]
        | ok pr => simp [Except.map]

theorem front_ok_shape (names : List String) (rev : List WValue)
    (args : List Nat) (rem : List WValue)
    (h : decodeArgsFront names rev = .ok (args, rem)) :
    names.length ≤ rev.length ∧
    List.Forall₂ (fun v x => decodeValue v = Except.ok x) (rev.take names.length) args ∧
    rem = rev.drop names.length := by
  induction names generalizing rev args rem with
  | nil =>
    simp only [decodeArgsFront] at h
    cases h
    simp
  | cons n rest ih =>
    cases rev with
    | nil => simp [decodeArgsFront] at h
    | cons v rev' =>
      cases hdo : decodeOneArg n v with
      | error e => simp [decodeArgsFront, hdo] at h
      | ok x =>
        cases hfr : decodeArgsFront rest rev' with
        | error e => simp [decodeArgsFront, hdo, hfr] at h
        | ok pr =>
          obtain ⟨xs, rem0⟩ := pr
          simp only [decodeArgsFront, hdo, hfr, Except.ok.injEq, Prod.mk.injEq] at h
          obtain ⟨h1, h2⟩ := h
          subst h1
          subst h2
          obtain ⟨hlen, hall, hrem⟩ := ih rev' xs rem0 hfr
          refine ⟨by simpa using Nat.succ_le_succ hlen, ?_, by simpa using hrem⟩
          simp only [List.length_cons, List.take_succ_cons]
          exact List.Forall₂.cons ((decodeOneArg_ok_iff n v x).mp hdo) hall

theorem front_missing (names : List String) (rev : List WValue)
    (hlt : rev.length < names.length)
    (hok : ∀ v ∈ rev, decodeOk v = true) :
    decodeArgsFront names rev =
      .error (.unexpected ("missing expected parameter [" ++ names.getD rev.length "" ++ "]")) := by
  induction names generalizing rev with
  | nil => simp at hlt
  | cons n rest ih =>
    cases rev with
    | nil => simp [decodeArgsFront]
    | cons v rev' =>
      obtain ⟨x, hx⟩ := (decodeOk_iff v).mp (hok v (List.mem_cons_self v rev'))
      have hdo : decodeOneArg n v = .ok x := (decodeOneArg_ok_iff n v x).mpr hx
      have hlt2 : rev'.length < rest.length := by simpa using hlt
      have hrec := ih rev' hlt2 (fun w hw => hok w (List.mem_cons_of_mem v hw))
      simp only [decodeArgsFront, hdo, hrec]
      simp [List.getD_cons_succ]

theorem front_fail_at (names : List String) (rev : List WValue) (j : Nat)
    (err : InvocationError)
    (hj : j < names.length) (hjr : j < rev.length)
    (hpre : ∀ i, i < j → decodeOk (rev.getD i default) = true)
    (hfail : decodeOneArg (names.getD j "") (rev.getD j default) = .error err) :
    decodeArgsFront names rev = .error err := by
  induction j generalizing names rev with
  | zero =>
    cases names with
    | nil => simp at hj
    | cons n rest =>
      cases rev with
      | nil => simp at hjr
      | cons v rev' =>
        simp only [List.getD_cons_zero] at hfail
        simp [decodeArgsFront, hfail]
  | succ j ih =>
    cases names with
    | nil => simp at hj
    | cons n rest =>
      cases rev with
      | nil => simp at hjr
      | cons v rev' =>
        obtain ⟨x, hx⟩ := (decodeOk_iff v).mp (by simpa using hpre 0 (Nat.succ_pos j))
        have hdo : decodeOneArg n v = .ok x := (decodeOneArg_ok_iff n v x).mpr hx
        have hrec := ih rest rev'
          (by simpa using Nat.lt_of_succ_lt_succ (by simpa using hj))
          (by simpa using Nat.lt_of_succ_lt_succ (by simpa using hjr))
          (fun i hi => by simpa using hpre (i + 1) (Nat.succ_lt_succ hi))
          (by simpa using hfail)
        simp only [decodeArgsFront, hdo, hrec]

theorem decodeArgs_ok_spec (names : List String) (params : List WValue)
    (args : List Nat) (rest : List WValue)
    (h : decodeArgs names params = .ok (args, rest)) :
    names.length ≤ params.length ∧
    List.Forall₂ (fun v x => decodeValue v = Except.ok x)
      (params.reverse.take names.length) args ∧
    rest = params.take (params.length - names.length) := by
  rw [decodeArgs_eq_front] at h
  cases hfr : decodeArgsFront names params.reverse with
  | error e => rw [hfr] at h; simp [Except.map] at h
  | ok pr =>
    obtain ⟨args0, rem⟩ := pr
    rw [hfr] at h
    simp only [Except.map, Except.ok.injEq, Prod.mk.injEq] at h
    obtain ⟨h1, h2⟩ := h
    subst h1
    subst h2
    obtain ⟨hlen, hall, hrem⟩ := front_ok_shape names params.reverse args0 rem hfr
    refine ⟨by simpa using hlen, hall, ?_⟩
    rw [hrem]
    have := (List.rdrop_eq_reverse_drop_reverse (l := params) (n := names.length)).symm
    simpa [List.rdrop] using this

theorem decodeArgs_missing (names : List String) (params : List WValue)
    (hlt : params.length < names.length)
    (hok : ∀ v ∈ params, decodeOk v = true) :
    decodeArgs names params =
      .error (.unexpected ("missing expected parameter [" ++ names.getD params.length "" ++ "]")) := by
  rw [decodeArgs_eq_front]
  rw [front_missing names params.reverse (by simpa using hlt)
    (fun v hv => hok v (List.mem_reverse.mp hv))]
  simp [Except.map]

theorem decodeArgs_fail_at (names : List String) (params : List WValue) (j : Nat)
    (err : InvocationError)
    (hj : j < names.length) (hjr : j < params.length)
    (hpre : ∀ i, i < j → decodeOk (params.reverse.getD i default) = true)
    (hfail : decodeOneArg (names.getD j "") (params.reverse.getD j default) = .error err) :
    decodeArgs names params = .error err := by
  rw [decodeArgs_eq_front]
  rw [front_fail_at names params.reverse j err hj (by simpa using hjr) hpre hfail]
  simp [Except.map]

/-! ## Helper lemmas about operation names and the method table builder -/

theorem string_append_right_inj (s a b : String) : s ++ a = s ++ b ↔ a = b := by
  constructor
  · intro h
    apply String.ext
    have hd := congrArg String.data h
    simp only [String.data_append] at hd
    exact List.append_cancel_left hd
  · intro h
    rw [h]

theorem buildWitOperation_of_split (path f ns pkg iface : String)
    (h : rustSplit '.' path = [ns, pkg, iface]) :
    buildWitOperation path f =
      .ok (toKebabCase ns ++ ":" ++ toKebabCase pkg ++ "/" ++
        toKebabCase iface ++ "." ++ toKebabCase f) := by
  simp [buildWitOperation, h]

theorem buildWitOperation_bad_path (path f : String)
    (h : (rustSplit '.' path).length ≠ 3) :
    buildWitOperation path f =
      .error "unexpected interface path, expected 3 components" := by
  unfold buildWitOperation
  rcases hs : rustSplit '.' path with _ | ⟨a, _ | ⟨b, _ | ⟨c, _ | ⟨d, t⟩⟩⟩⟩
  · rfl
  · rfl
  · rfl
  · exact absurd (by rw [hs]; rfl) h
  · rfl

theorem processIfaceFns_bad_path (catalog : StructLookup) (path : String)
    (fn : FnSig) (fns : List FnSig)
    (h : (rustSplit '.' path).length ≠ 3) :
    processIfaceFns catalog path (fn :: fns) =
      .error "unexpected interface path, expected 3 components" := by
  simp [processIfaceFns, buildWitOperation_bad_path path fn.name h]

theorem build_lattice_methods_error_of_bad_path (catalog : StructLookup)
    (entries : List (String × List FnSig)) (path : String) (funcs : List FnSig)
    (hmem : (path, funcs) ∈ entries)
    (hbad : (rustSplit '.' path).length ≠ 3)
    (hne : funcs ≠ []) :
    ∃ e, build_lattice_methods_by_wit_interface catalog entries = .error e := by
  induction entries with
  | nil => cases hmem
  | cons hd tl ih =>
    obtain ⟨name, fs⟩ := hd
    rcases List.mem_cons.mp hmem with heq | htl
    · rw [Prod.mk.injEq] at heq
      obtain ⟨h1, h2⟩ := heq
      subst h1
      subst h2
      cases funcs with
      | nil => exact absurd rfl hne
      | cons f fs2 =>
        refine ⟨"unexpected interface path, expected 3 components", ?_⟩
        simp [build_lattice_methods_by_wit_interface,
          processIfaceFns_bad_path catalog path f fs2 hbad]
    · cases hpr : processIfaceFns catalog name fs with
      | error e =>
        exact ⟨e, by simp [build_lattice_methods_by_wit_interface, hpr]⟩
      | ok ms =>
        obtain ⟨e, he⟩ := ih htl
        exact ⟨e, by simp [build_lattice_methods_by_wit_interface, hpr, he]⟩

theorem import_methods_mem_iff (cfg : ExposureConfig)
    (imports : List ImportedInterface) (p : Option PackageName) (f : String) :
    (p, f) ∈ imported_iface_invocation_methods cfg imports ↔
      ∃ iface ∈ imports, iface.package = p ∧ f ∈ iface.functions ∧
        (iface.package.map is_ignored_invocation_handler_pkg).getD false = false := by
  simp only [imported_iface_invocation_methods, List.mem_flatMap]
  constructor
  · rintro ⟨iface, hif, hmem⟩
    by_cases hig : (iface.package.map is_ignored_invocation_handler_pkg).getD false = true
    · simp [hig] at hmem
    · rw [if_neg (by simpa using hig)] at hmem
      rcases List.mem_map.mp hmem with ⟨g, hg, heq⟩
      rw [Prod.mk.injEq] at heq
      obtain ⟨h1, h2⟩ := heq
      subst h1
      subst h2
      exact ⟨iface, hif, rfl, hg, by simpa using hig⟩
  · rintro ⟨iface, hif, hp, hf, hnig⟩
    subst hp
    refine ⟨iface, hif, ?_⟩
    rw [if_neg (by simp [hnig])]
    exact List.mem_map_of_mem _ hf

/-! ## Claim theorems -/

/-- Claim C1: in the generated dispatch procedure, a matched operation with
n declared arguments consumes exactly one value from the incoming value
collection per expected argument (the remainder is the untouched front of
the vector, of length the original length minus n), and the value decoded
into the i-th declared argument is the i-th value consumed, so consumption
order follows declaration order. The generated code pops values off the
back of the vector, so the consumption sequence is the reversed vector;
the first declared argument receives the first consumed value. -/
theorem C1_one_value_consumed_per_argument_in_declaration_order
    (names : List String) (params : List WValue) (args : List Nat)
    (rest : List WValue)
    (h : decodeArgs names params = .ok (args, rest)) :
    args.length = names.length ∧
    rest = params.take (params.length - names.length) ∧
    List.Forall₂ (fun v x => decodeValue v = Except.ok x)
      (params.reverse.take names.length) args := by
  obtain ⟨hlen, hall, hrest⟩ := decodeArgs_ok_spec names params args rest h
  refine ⟨?_, hrest, hall⟩
  have h1 := hall.length_eq
  rw [List.length_take, List.length_reverse] at h1
  omega

/-- Concrete instantiation of C1: two declared arguments against three
incoming values. -/
theorem C1_witness :
    decodeArgs ["a", "b"] [mkVal 5, mkVal 7, mkVal 9] = .ok ([9, 7], [mkVal 5]) ∧
    (([9, 7] : List Nat).length = (["a", "b"] : List String).length ∧
      [mkVal 5] =
        [mkVal 5, mkVal 7, mkVal 9].take
          ([mkVal 5, mkVal 7, mkVal 9].length - (["a", "b"] : List String).length) ∧
      List.Forall₂ (fun v x => decodeValue v = Except.ok x)
        ([mkVal 5, mkVal 7, mkVal 9].reverse.take (["a", "b"] : List String).length)
        [9, 7]) :=
  ⟨by decide,
    C1_one_value_consumed_per_argument_in_declaration_order
      ["a", "b"] [mkVal 5, mkVal 7, mkVal 9] [9, 7] [mkVal 5] (by decide)⟩

/-- Claim C3: for an exported function whose interface path has exactly
three dot-separated segments, the operation name is the kebab-casing of
namespace, package, interface, and function name independently, joined as
namespace, colon, package, slash, interface, dot, function. -/
theorem C3_operation_name_kebab_format (path f ns pkg iface : String)
    (h : rustSplit '.' path = [ns, pkg, iface]) :
    buildWitOperation path f =
      .ok (toKebabCase ns ++ ":" ++ toKebabCase pkg ++ "/" ++
        toKebabCase iface ++ "." ++ toKebabCase f) :=
  buildWitOperation_of_split path f ns pkg iface h

/-- Concrete instantiation of C3, the spec's Scenario A: interface path
`wasmcloud.keyvalue.key_value` with function `get` produces the operation
name `wasmcloud:keyvalue/key-value.get`. -/
theorem C3_witness :
    rustSplit '.' "wasmcloud.keyvalue.key_value" =
      ["wasmcloud", "keyvalue", "key_value"] ∧
    buildWitOperation "wasmcloud.keyvalue.key_value" "get" =
      .ok (toKebabCase "wasmcloud" ++ ":" ++ toKebabCase "keyvalue" ++ "/" ++
        toKebabCase "key_value" ++ "." ++ toKebabCase "get") ∧
    buildWitOperation "wasmcloud.keyvalue.key_value" "get" =
      .ok "wasmcloud:keyvalue/key-value.get" :=
  ⟨by decide,
    C3_operation_name_kebab_format "wasmcloud.keyvalue.key_value" "get"
      "wasmcloud" "keyvalue" "key_value" (by decide),
    by decide⟩

/-- Claim C5: dispatching an operation name that matches none of the
generated arms yields a `Malformed` failure naming the offending operation.
No handler is invoked: the statement holds for every list of arms, with
every possible handler function, and the resulting error does not depend on
any of them. -/
theorem C5_unknown_operation_malformed (arms : List DispatchArm) (ctx : Nat)
    (op : String) (params : List WValue)
    (h : ∀ arm ∈ arms, arm.operationName ≠ op) :
    dispatch_wrpc_dynamic arms ctx op params =
      .error (.malformed ("Invalid operation name [" ++ op ++ "]")) := by
  have hf : arms.find? (fun a => a.operationName == op) = none :=
    List.find?_eq_none.mpr (fun a ha => by simpa using h a ha)
  simp [dispatch_wrpc_dynamic, hf]

/-- Concrete instantiation of C5: one arm for another operation, and an
unrecognized operation name. -/
theorem C5_witness :
    dispatch_wrpc_dynamic
      [⟨"wasmcloud:keyvalue/key-value.get", ["key"], fun _ _ => Except.ok []⟩]
      0 "wasmcloud:keyvalue/key-value.del" [] =
      .error (.malformed
        ("Invalid operation name [" ++ "wasmcloud:keyvalue/key-value.del" ++ "]")) :=
  C5_unknown_operation_malformed
    [⟨"wasmcloud:keyvalue/key-value.get", ["key"], fun _ _ => Except.ok []⟩]
    0 "wasmcloud:keyvalue/key-value.del" []
    (by
      intro arm ha
      rw [List.mem_singleton] at ha
      subst ha
      decide)

/-- Claim C2 (the translation function is modelled from the spec, since the
crate's wit module is not among the available sources): a function with
exactly one declared parameter whose type is an entry of the record-type
catalog gets that record's own fields, in the record's declared field
order, as separate named invocation arguments; a sole parameter whose type
is not in the catalog is kept as-is as one named argument. -/
theorem C2_record_flattening (catalog : StructLookup)
    (op argName tyName : String) (fn : FnSig)
    (h : fn.args = [(argName, tyName)]) :
    (∀ fields, List.lookup tyName catalog = some fields →
      (translate_export_fn_for_lattice catalog op fn).invocation_args = fields) ∧
    (List.lookup tyName catalog = none →
      (translate_export_fn_for_lattice catalog op fn).invocation_args =
        [(argName, tyName)]) := by
  constructor
  · intro fields hl
    simp [translate_export_fn_for_lattice, h, hl]
  · intro hl
    simp [translate_export_fn_for_lattice, h, hl]

/-- Concrete instantiation of C2, the spec's Scenario B: a sole parameter
of the record type `PutArgs` is flattened to the record's two fields. -/
theorem C2_witness :
    (⟨"put", [("put_args", "PutArgs")], some "unit"⟩ : FnSig).args =
      [("put_args", "PutArgs")] ∧
    ((∀ fields,
        List.lookup "PutArgs"
          [("PutArgs", [("key", "string"), ("value", "string")])] = some fields →
        (translate_export_fn_for_lattice
          [("PutArgs", [("key", "string"), ("value", "string")])]
          "wasmcloud:keyvalue/key-value.put"
          ⟨"put", [("put_args", "PutArgs")], some "unit"⟩).invocation_args = fields) ∧
      (List.lookup "PutArgs"
          [("PutArgs", [("key", "string"), ("value", "string")])] = none →
        (translate_export_fn_for_lattice
          [("PutArgs", [("key", "string"), ("value", "string")])]
          "wasmcloud:keyvalue/key-value.put"
          ⟨"put", [("put_args", "PutArgs")], some "unit"⟩).invocation_args =
          [("put_args", "PutArgs")])) :=
  ⟨rfl,
    C2_record_flattening
      [("PutArgs", [("key", "string"), ("value", "string")])]
      "wasmcloud:keyvalue/key-value.put" "put_args" "PutArgs"
      ⟨"put", [("put_args", "PutArgs")], some "unit"⟩ rfl⟩

/-- Counterexample to claim C4 as stated: two distinct function names that
differ only in case convention (snake case versus camel case) produce the
same operation name, because kebab-casing is not injective on raw
identifiers, so the operation-name construction is not injective on
function names. -/
theorem C4_counterexample :
    ("foo_bar" : String) ≠ "fooBar" ∧
    buildWitOperation "wasmcloud.keyvalue.key_value" "foo_bar" =
      buildWitOperation "wasmcloud.keyvalue.key_value" "fooBar" ∧
    buildWitOperation "wasmcloud.keyvalue.key_value" "foo_bar" =
      .ok "wasmcloud:keyvalue/key-value.foo-bar" :=
  ⟨by decide, by decide, by decide⟩

/-- Claim C4 as amended: within one interface (a fixed three-segment
interface path), two functions receive the same operation name exactly when
their kebab-cased names coincide. Distinct functions therefore receive
distinct operation names precisely when their kebab-cased names differ,
which holds for the snake-case method names upstream bindgen derives from
distinct WIT function names, but not for arbitrary distinct identifiers. -/
theorem C4_amended_operation_name_inj_iff_kebab
    (path f1 f2 ns pkg iface : String)
    (h : rustSplit '.' path = [ns, pkg, iface]) :
    buildWitOperation path f1 = buildWitOperation path f2 ↔
      toKebabCase f1 = toKebabCase f2 := by
  rw [buildWitOperation_of_split path f1 ns pkg iface h,
    buildWitOperation_of_split path f2 ns pkg iface h]
  constructor
  · intro he
    exact (string_append_right_inj _ _ _).mp (Except.ok.inj he)
  · intro hk
    rw [hk]

/-- Concrete instantiation of the amended C4 at the colliding pair. -/
theorem C4_witness :
    rustSplit '.' "wasmcloud.keyvalue.key_value" =
      ["wasmcloud", "keyvalue", "key_value"] ∧
    (buildWitOperation "wasmcloud.keyvalue.key_value" "foo_bar" =
        buildWitOperation "wasmcloud.keyvalue.key_value" "fooBar" ↔
      toKebabCase "foo_bar" = toKebabCase "fooBar") :=
  ⟨by decide,
    C4_amended_operation_name_inj_iff_kebab "wasmcloud.keyvalue.key_value"
      "foo_bar" "fooBar" "wasmcloud" "keyvalue" "key_value" (by decide)⟩

/-- Claim C6: in a matched dispatch arm, if the incoming value collection
runs out before an expected argument can be consumed, dispatch returns an
`Unexpected` failure naming the first declared parameter left without a
value; a decode failure on a consumed value, at either the encode stage or
the receive stage, likewise yields an `Unexpected` failure naming that
parameter and the underlying cause. No handler is invoked: the statement
holds for every arm list with every possible handler function, and the
resulting error depends on none of them. Consumption index i refers to the
i-th value consumed, that is the i-th entry of the reversed parameter
vector, matching the declaration order of the arguments. -/
theorem C6_decode_failures_name_parameter
    (arms : List DispatchArm) (arm : DispatchArm) (ctx : Nat) (op : String)
    (params : List WValue)
    (hfind : arms.find? (fun a => a.operationName == op) = some arm) :
    (params.length < arm.argNames.length →
      (∀ v ∈ params, decodeOk v = true) →
      dispatch_wrpc_dynamic arms ctx op params =
        .error (.unexpected
          ("missing expected parameter [" ++
            arm.argNames.getD params.length "" ++ "]"))) ∧
    (∀ j e, j < arm.argNames.length → j < params.length →
      (∀ i, i < j → decodeOk (params.reverse.getD i default) = true) →
      (params.reverse.getD j default).encodeResult = .error e →
      dispatch_wrpc_dynamic arms ctx op params =
        .error (.unexpected
          ("failed to encode parameter [" ++ arm.argNames.getD j "" ++ "]: " ++ e))) ∧
    (∀ j b e, j < arm.argNames.length → j < params.length →
      (∀ i, i < j → decodeOk (params.reverse.getD i default) = true) →
      (params.reverse.getD j default).encodeResult = .ok b →
      b.receiveResult = .error e →
      dispatch_wrpc_dynamic arms ctx op params =
        .error (.unexpected
          ("failed to receive parameter [" ++ arm.argNames.getD j "" ++ "]: " ++ e))) := by
  have hdd : ∀ e, decodeArgs arm.argNames params = .error e →
      dispatch_wrpc_dynamic arms ctx op params = .error e := by
    intro e he
    simp [dispatch_wrpc_dynamic, hfind, runArm, he]
  refine ⟨?_, ?_, ?_⟩
  · intro hlt hok
    exact hdd _ (decodeArgs_missing arm.argNames params hlt hok)
  · intro j e hj hjp hpre henc
    refine hdd _ (decodeArgs_fail_at arm.argNames params j _ hj hjp hpre ?_)
    simp only [List.getD_eq_getElem?_getD] at henc
    simp [decodeOneArg, henc]
  · intro j b e hj hjp hpre henc hrecv
    refine hdd _ (decodeArgs_fail_at arm.argNames params j _ hj hjp hpre ?_)
    simp only [List.getD_eq_getElem?_getD] at henc
    simp [decodeOneArg, henc, hrecv]

/-- Concrete instantiation of C6: an arm expecting two arguments invoked
with a single (well-formed) value. -/
theorem C6_witness :
    ([⟨"wasmcloud:keyvalue/key-value.set", ["key", "value"],
        fun _ _ => Except.ok []⟩] : List DispatchArm).find?
      (fun a => a.operationName == "wasmcloud:keyvalue/key-value.set") =
      some ⟨"wasmcloud:keyvalue/key-value.set", ["key", "value"],
        fun _ _ => Except.ok []⟩ ∧
    (([mkVal 1] : List WValue).length <
        (["key", "value"] : List String).length →
      (∀ v ∈ ([mkVal 1] : List WValue), decodeOk v = true) →
      dispatch_wrpc_dynamic
        [⟨"wasmcloud:keyvalue/key-value.set", ["key", "value"],
          fun _ _ => Except.ok []⟩]
        0 "wasmcloud:keyvalue/key-value.set" [mkVal 1] =
        .error (.unexpected
          ("missing expected parameter [" ++
            (["key", "value"] : List String).getD ([mkVal 1] : List WValue).length "" ++
            "]"))) :=
  ⟨rfl,
    (C6_decode_failures_name_parameter
      [⟨"wasmcloud:keyvalue/key-value.set", ["key", "value"],
        fun _ _ => Except.ok []⟩]
      ⟨"wasmcloud:keyvalue/key-value.set", ["key", "value"],
        fun _ _ => Except.ok []⟩
      0 "wasmcloud:keyvalue/key-value.set" [mkVal 1] rfl).1⟩

/-- Claim C7: every export contributes a subject-table entry whose key is
the routing domain (lattice name), the component id, the literal transport
tag `wrpc`, the protocol version, and the export's canonical operation
name, dot-separated, and whose value is the triple of world key name,
function name, and dynamic function descriptor. -/
theorem C7_subject_table_entry (exports : List WrpcExport)
    (latticeName componentId wrpcVersion : String) (e : WrpcExport)
    (he : e ∈ exports) :
    (wrpcSubject latticeName componentId wrpcVersion e,
      (e.worldKeyName, e.functionName, e.dynamicFn)) ∈
      incoming_wrpc_invocations_by_subject exports latticeName componentId wrpcVersion ∧
    wrpcSubject latticeName componentId wrpcVersion e =
      latticeName ++ "." ++ componentId ++ ".wrpc." ++ wrpcVersion ++ "." ++
        (e.wit_ns ++ ":" ++ e.wit_pkg ++ "/" ++ e.wit_iface ++ "." ++ e.wit_iface_fn) := by
  constructor
  · exact List.mem_map_of_mem _ he
  · simp [wrpcSubject, String.append_assoc]

/-- Concrete instantiation of C7, the spec's Scenario C. -/
theorem C7_witness :
    (⟨"wasmcloud", "keyvalue", "key-value", "get", "KeyValue", "get",
      "descriptor"⟩ : WrpcExport) ∈
      ([⟨"wasmcloud", "keyvalue", "key-value", "get", "KeyValue", "get",
        "descriptor"⟩] : List WrpcExport) ∧
    ((wrpcSubject "domain" "component" "0.0.1"
        ⟨"wasmcloud", "keyvalue", "key-value", "get", "KeyValue", "get",
          "descriptor"⟩,
      ("KeyValue", "get", "descriptor")) ∈
      incoming_wrpc_invocations_by_subject
        [⟨"wasmcloud", "keyvalue", "key-value", "get", "KeyValue", "get",
          "descriptor"⟩] "domain" "component" "0.0.1" ∧
    wrpcSubject "domain" "component" "0.0.1"
        ⟨"wasmcloud", "keyvalue", "key-value", "get", "KeyValue", "get",
          "descriptor"⟩ =
      "domain" ++ "." ++ "component" ++ ".wrpc." ++ "0.0.1" ++ "." ++
        ("wasmcloud" ++ ":" ++ "keyvalue" ++ "/" ++ "key-value" ++ "." ++ "get")) :=
  ⟨by decide,
    C7_subject_table_entry
      [⟨"wasmcloud", "keyvalue", "key-value", "get", "KeyValue", "get",
        "descriptor"⟩]
      "domain" "component" "0.0.1"
      ⟨"wasmcloud", "keyvalue", "key-value", "get", "KeyValue", "get",
        "descriptor"⟩ (by decide)⟩

/-- Claim C8: the import-handler generation ignores the allow-list and
deny-list entirely (the output is the same for any two configurations); no
generated invocation-handler method comes from an interface whose package
is the bus-control package (wasmcloud, bus) or the generic I/O package
(wasi, io); and for every imported interface not so excluded, every
function is processed into an invocation-handler method. -/
theorem C8_import_handler_package_exclusions (cfg cfg2 : ExposureConfig)
    (imports : List ImportedInterface) :
    imported_iface_invocation_methods cfg imports =
      imported_iface_invocation_methods cfg2 imports ∧
    (∀ p f, (some p, f) ∈ imported_iface_invocation_methods cfg imports →
      is_ignored_invocation_handler_pkg p = false) ∧
    (∀ iface ∈ imports,
      (iface.package.map is_ignored_invocation_handler_pkg).getD false = false →
      ∀ f ∈ iface.functions,
        (iface.package, f) ∈ imported_iface_invocation_methods cfg imports) := by
  refine ⟨rfl, ?_, ?_⟩
  · intro p f hm
    obtain ⟨iface, hif, hp, hf, hnig⟩ :=
      (import_methods_mem_iff cfg imports (some p) f).mp hm
    rw [hp] at hnig
    simpa using hnig
  · intro iface hif hnig f hf
    exact (import_methods_mem_iff cfg imports iface.package f).mpr
      ⟨iface, hif, rfl, hf, hnig⟩

/-- Claim C9: an exported function whose interface path does not split into
exactly three dot-separated segments makes the whole lattice-method
translation return an error, so the generation run aborts and no partial
method table is produced. -/
theorem C9_bad_interface_path_aborts (catalog : StructLookup)
    (entries : List (String × List FnSig)) (path : String) (funcs : List FnSig)
    (hmem : (path, funcs) ∈ entries)
    (hbad : (rustSplit '.' path).length ≠ 3)
    (hne : funcs ≠ []) :
    ∃ e, build_lattice_methods_by_wit_interface catalog entries = .error e :=
  build_lattice_methods_error_of_bad_path catalog entries path funcs hmem hbad hne

/-- Concrete instantiation of C9: a two-segment interface path. -/
theorem C9_witness :
    ("wasmcloud.keyvalue", [(⟨"get", [("key", "string")], some "string"⟩ : FnSig)]) ∈
      ([("wasmcloud.keyvalue", [⟨"get", [("key", "string")], some "string"⟩])] :
        List (String × List FnSig)) ∧
    (rustSplit '.' "wasmcloud.keyvalue").length ≠ 3 ∧
    ([(⟨"get", [("key", "string")], some "string"⟩ : FnSig)] : List FnSig) ≠ [] ∧
    ∃ e, build_lattice_methods_by_wit_interface []
      [("wasmcloud.keyvalue", [⟨"get", [("key", "string")], some "string"⟩])] =
      .error e :=
  ⟨by decide, by decide, by decide,
    C9_bad_interface_path_aborts []
      [("wasmcloud.keyvalue", [⟨"get", [("key", "string")], some "string"⟩])]
      "wasmcloud.keyvalue" [⟨"get", [("key", "string")], some "string"⟩]
      (by decide) (by decide) (by decide)⟩

/-- Claim C10: when a matched arm receives more values than its declared
argument count and decoding succeeds, the surplus values are silently
ignored: exactly one value per declared argument is removed (the remaining
collection is nonempty, of length the original length minus the argument
count), the handler runs on the decoded arguments, and dispatch returns
its encoded result with no error. -/
theorem C10_surplus_values_ignored
    (arms : List DispatchArm) (arm : DispatchArm) (ctx : Nat) (op : String)
    (params : List WValue) (args out : List Nat) (rest : List WValue)
    (hfind : arms.find? (fun a => a.operationName == op) = some arm)
    (hdec : decodeArgs arm.argNames params = .ok (args, rest))
    (hsurplus : arm.argNames.length < params.length)
    (hh : arm.handler ctx args = .ok out) :
    dispatch_wrpc_dynamic arms ctx op params = .ok out ∧
    rest.length = params.length - arm.argNames.length ∧
    rest ≠ [] := by
  obtain ⟨hlen, hall, hrest⟩ := decodeArgs_ok_spec arm.argNames params args rest hdec
  refine ⟨by simp [dispatch_wrpc_dynamic, hfind, runArm, hdec, hh], ?_, ?_⟩
  · rw [hrest, List.length_take]
    omega
  · rw [hrest]
    intro hc
    have hl := congrArg List.length hc
    rw [List.length_take] at hl
    simp only [List.length_nil] at hl
    omega

/-- Concrete instantiation of C10: one declared argument against two
incoming values; the front value is untouched. -/
theorem C10_witness :
    ([⟨"op.echo", ["a"], fun _ xs => Except.ok xs⟩] : List DispatchArm).find?
      (fun a => a.operationName == "op.echo") =
      some ⟨"op.echo", ["a"], fun _ xs => Except.ok xs⟩ ∧
    decodeArgs ["a"] [mkVal 1, mkVal 2] = .ok ([2], [mkVal 1]) ∧
    (["a"] : List String).length < ([mkVal 1, mkVal 2] : List WValue).length ∧
    (dispatch_wrpc_dynamic [⟨"op.echo", ["a"], fun _ xs => Except.ok xs⟩]
        0 "op.echo" [mkVal 1, mkVal 2] = .ok [2] ∧
      ([mkVal 1] : List WValue).length =
        ([mkVal 1, mkVal 2] : List WValue).length - (["a"] : List String).length ∧
      ([mkVal 1] : List WValue) ≠ []) :=
  ⟨rfl, by decide, by decide,
    C10_surplus_values_ignored
      [⟨"op.echo", ["a"], fun _ xs => Except.ok xs⟩]
      ⟨"op.echo", ["a"], fun _ xs => Except.ok xs⟩
      0 "op.echo" [mkVal 1, mkVal 2] [2] [2] [mkVal 1]
      rfl (by decide) (by decide) rfl⟩

end ProviderWitBindgen
